import Mathlib

/-
  Shallow embedding of the Anchor escrow program
  (src/programs/escrow/src/lib.rs) and proofs of the specification
  claims about it.

  Modelling conventions:
  * `Pubkey` is `Nat`.
  * The ledger state (`Chain`) maps addresses to SPL token accounts, to
    escrow records (the program-owned `EscrowAccount`), to a mint flag,
    and to lamport balances of plain (wallet) accounts.
  * The SPL token program (an external collaborator per the spec) is
    modelled by `splTransfer`, `splSetAuthority` and `splCloseAccount`,
    following SPL semantics: a transfer requires the authority to equal
    the source account's owner and to have signed, sufficient source
    funds, matching mints, and no u64 overflow at the destination;
    `close` requires a zero token balance and credits the account's
    lamports (its rent deposit) to the destination.
  * Program-derived addresses: the program's vault authority is
    `find_program_address([ESCROW_PDA_SEED], program_id)` with the fixed
    module constant `ESCROW_PDA_SEED = b"escrow"`, so it takes no
    per-call input and is a constant here.  The vault account, by
    contrast, is created at the PDA of the fixed seed `[b"token-seed"]`
    TOGETHER WITH the caller-supplied `vault_account_bump`
    (`bump = vault_account_bump` in the `init` attribute), i.e. at
    `create_program_address([b"token-seed", [bump]])`: the address is a
    function of the bump byte alone (`vaultAddressOf`), independent of
    the offer, with distinct bumps giving distinct addresses.  (On the
    real chain some bump values make the derivation fail; such a bump
    only aborts `initialize`, so not modelling it merely removes
    executions and affects no claim.)
  * Signature checking: each instruction receives the list of
    transaction signers; a CPI leg executed `with_signer` for the escrow
    PDA seeds additionally treats `vaultAuthorityKey` as signed.
  * Anchor account validation runs before the instruction handler, in
    field order, with a field's constraints checked in source order.
    Errors use the spec's vocabulary: signer failures are
    `Unauthorized`, the `initializer_key` constraint of `cancel` is
    `Unauthorized`, the amount constraints are `InsufficientFunds`, the
    stored-account-reference constraints are `AccountMismatch`, and a
    missing/closed escrow record is `RecordNotFound`.  Substrate-level
    failures (missing account, account in use, seeds mismatch, mint
    mismatch, overflow, closing a non-empty account) get their own
    constructors.
  * An instruction is a single atomic unit: it returns `Except`, and on
    any error the caller's state is unchanged (all-or-nothing).
-/

namespace Escrow

abbrev Pubkey := Nat

/-- u64 modulus: token amounts in the source are `u64`. -/
def U64CAP : Nat := 2 ^ 64

/-- An SPL token account: mint, owner (transfer authority), token amount,
and the lamports (rent deposit) held by the account itself. -/
structure TokenAccount where
  mint : Pubkey
  owner : Pubkey
  amount : Nat
  lamports : Nat
deriving DecidableEq, Repr

/-- The program's `EscrowAccount` state, field for field from the source.
Note that it stores no identifier of the vault account. -/
structure EscrowAccount where
  initializer_key : Pubkey
  initializer_deposit_token_account : Pubkey
  initializer_receive_token_account : Pubkey
  initializer_amount : Nat
  taker_amount : Nat
deriving DecidableEq, Repr

/-- Ledger state: token accounts, escrow records, which addresses are
mints, and wallet lamport balances. -/
structure Chain where
  tokens : Pubkey → Option TokenAccount
  escrows : Pubkey → Option EscrowAccount
  mints : Pubkey → Bool
  lamports : Pubkey → Nat

inductive Err where
  | InsufficientFunds
  | Unauthorized
  | AccountMismatch
  | RecordNotFound
  | AccountNotFound
  | AccountAlreadyInUse
  | SeedsMismatch
  | MintMismatch
  | Overflow
  | NonZeroBalance
deriving DecidableEq, Repr

/-- `declare_id!` of the program. -/
def programId : Pubkey := 100

/-- `find_program_address([ESCROW_PDA_SEED], program_id)` where
`ESCROW_PDA_SEED = b"escrow"` is a module-level constant: the keyless
vault authority.  Both seed and program id are fixed, so this is a
constant. -/
def vaultAuthorityKey : Pubkey := 101

/-- The address of the vault account created by `initialize`:
`create_program_address([b"token-seed", [vault_account_bump]])`, the
PDA of the fixed seed together with the caller-supplied bump byte.  The
derivation takes no per-offer input besides the bump, so it is a
function of the bump alone, injective on the u8 range. -/
def vaultAddressOf (bump : Nat) : Pubkey := 1000 + bump % 256

/-- Rent-exempt lamports deposited into a fresh token account
(substrate constant; the exact value is irrelevant to the claims). -/
def VAULT_RENT : Nat := 2039280

/-- Point update of the token-account map. -/
def setTok (f : Pubkey → Option TokenAccount) (k : Pubkey)
    (v : Option TokenAccount) : Pubkey → Option TokenAccount :=
  fun p => if p = k then v else f p

/-- Point update of the escrow-record map. -/
def setEsc (f : Pubkey → Option EscrowAccount) (k : Pubkey)
    (v : Option EscrowAccount) : Pubkey → Option EscrowAccount :=
  fun p => if p = k then v else f p

/-- Add lamports to a wallet balance. -/
def addLam (f : Pubkey → Nat) (k : Pubkey) (n : Nat) : Pubkey → Nat :=
  fun p => if p = k then f p + n else f p

/-- Token amount held at an address (0 if no token account there). -/
def bal (ch : Chain) (p : Pubkey) : Nat :=
  match ch.tokens p with
  | some t => t.amount
  | none => 0

/-- SPL token `transfer`: moves `amount` from `source` to `dest`,
authorized by `authority`, which must be the source owner and must have
signed.  Mints must match; a self-transfer is a no-op; the destination
amount must not overflow u64. -/
def splTransfer (ch : Chain) (source dest authority : Pubkey) (amount : Nat)
    (signedBy : List Pubkey) : Except Err Chain :=
  match ch.tokens source with
  | none => .error .AccountNotFound
  | some f =>
    match ch.tokens dest with
    | none => .error .AccountNotFound
    | some t =>
      if f.owner ≠ authority then .error .Unauthorized
      else if authority ∉ signedBy then .error .Unauthorized
      else if f.amount < amount then .error .InsufficientFunds
      else if f.mint ≠ t.mint then .error .MintMismatch
      else if source = dest then .ok ch
      else if U64CAP ≤ t.amount + amount then .error .Overflow
      else
        let f2 : TokenAccount := { f with amount := f.amount - amount }
        let t2 : TokenAccount := { t with amount := t.amount + amount }
        .ok { ch with tokens := setTok (setTok ch.tokens source (some f2)) dest (some t2) }

/-- SPL token `set_authority` (AccountOwner): the current authority must
own the account and have signed. -/
def splSetAuthority (ch : Chain) (account newAuthority currentAuthority : Pubkey)
    (signedBy : List Pubkey) : Except Err Chain :=
  match ch.tokens account with
  | none => .error .AccountNotFound
  | some t =>
    if t.owner ≠ currentAuthority then .error .Unauthorized
    else if currentAuthority ∉ signedBy then .error .Unauthorized
    else .ok { ch with tokens := setTok ch.tokens account (some { t with owner := newAuthority }) }

/-- SPL token `close_account`: the authority must own the account and
have signed; the token balance must be zero; the account is removed and
its lamports (rent deposit) are credited to `destination`. -/
def splCloseAccount (ch : Chain) (account destination authority : Pubkey)
    (signedBy : List Pubkey) : Except Err Chain :=
  match ch.tokens account with
  | none => .error .AccountNotFound
  | some t =>
    if t.owner ≠ authority then .error .Unauthorized
    else if authority ∉ signedBy then .error .Unauthorized
    else if t.amount ≠ 0 then .error .NonZeroBalance
    else
      let tk2 := setTok ch.tokens account none
      let lm2 := addLam ch.lamports destination t.lamports
      .ok { ch with tokens := tk2, lamports := lm2 }

/-- The accounts of the `Initialize` instruction, in source field order. -/
structure InitializeAccs where
  initializer : Pubkey
  mint : Pubkey
  vault_account : Pubkey
  initializer_deposit_token_account : Pubkey
  initializer_receive_token_account : Pubkey
  escrow_account : Pubkey
deriving DecidableEq, Repr

/-- The accounts of the `Cancel` instruction, in source field order. -/
structure CancelAccs where
  initializer : Pubkey
  vault_account : Pubkey
  vault_authority : Pubkey
  initializer_deposit_token_account : Pubkey
  escrow_account : Pubkey
deriving DecidableEq, Repr

/-- The accounts of the `Exchange` instruction, in source field order. -/
structure ExchangeAccs where
  taker : Pubkey
  taker_deposit_token_account : Pubkey
  taker_receive_token_account : Pubkey
  initializer_deposit_token_account : Pubkey
  initializer_receive_token_account : Pubkey
  initializer : Pubkey
  escrow_account : Pubkey
  vault_account : Pubkey
  vault_authority : Pubkey
deriving DecidableEq, Repr

/-- `initialize(ctx, vault_account_bump, initializer_amount, taker_amount)`.
Validation (Anchor, field order): `initializer` is a signer; `mint` is a
mint; `vault_account` is `init` at the PDA of the fixed seed
`[b"token-seed"]` and the caller-supplied `vault_account_bump` (so its
address must be `vaultAddressOf vault_account_bump` and must be
unoccupied), created with `token::mint = mint` and
`token::authority = initializer`; `initializer_deposit_token_account`
must hold at least `initializer_amount` (else `InsufficientFunds`);
`initializer_receive_token_account` is a token account; `escrow_account`
is a zeroed fresh record slot.  Handler (source order): populate the
record, `set_authority` of the vault to the escrow PDA, transfer
`initializer_amount` from the deposit account into the vault. -/
def initializeEscrow (ch : Chain) (a : InitializeAccs) (signers : List Pubkey)
    (vault_account_bump : Nat) (initializer_amount taker_amount : Nat) :
    Except Err Chain :=
  if a.initializer ∉ signers then .error .Unauthorized
  else if ch.mints a.mint = false then .error .AccountNotFound
  else if a.vault_account ≠ vaultAddressOf vault_account_bump then .error .SeedsMismatch
  else if (ch.tokens a.vault_account).isSome then .error .AccountAlreadyInUse
  else
    match ch.tokens a.initializer_deposit_token_account with
    | none => .error .AccountNotFound
    | some dep =>
      if dep.amount < initializer_amount then .error .InsufficientFunds
      else if (ch.tokens a.initializer_receive_token_account).isNone then .error .AccountNotFound
      else if (ch.escrows a.escrow_account).isSome then .error .AccountAlreadyInUse
      else
        let tkV := setTok ch.tokens a.vault_account (some ⟨a.mint, a.initializer, 0, VAULT_RENT⟩)
        let chV : Chain := { ch with tokens := tkV }
        let record : EscrowAccount := ⟨a.initializer, a.initializer_deposit_token_account, a.initializer_receive_token_account, initializer_amount, taker_amount⟩
        let chR : Chain := { chV with escrows := setEsc chV.escrows a.escrow_account (some record) }
        match splSetAuthority chR a.vault_account vaultAuthorityKey a.initializer signers with
        | .error e => .error e
        | .ok chS =>
          match splTransfer chS a.initializer_deposit_token_account a.vault_account
              a.initializer initializer_amount signers with
          | .error e => .error e
          | .ok chT => .ok chT

/-- `cancel(ctx)`.  Validation (Anchor, field order): `initializer` is a
signer; `vault_account` and `initializer_deposit_token_account` are
token accounts; the escrow record must exist (else `RecordNotFound`)
with `initializer_key == initializer.key` (else `Unauthorized`, spec
vocabulary) and `initializer_deposit_token_account` equal to the
supplied one (else `AccountMismatch`).  No constraint relates
`vault_account` or `vault_authority` to the record.  Handler: transfer
`initializer_amount` from `vault_account` to the deposit account with
the escrow PDA signing, close `vault_account` to `initializer`, and
close the record (`close = initializer`). -/
def cancel (ch : Chain) (a : CancelAccs) (signers : List Pubkey) :
    Except Err Chain :=
  if a.initializer ∉ signers then .error .Unauthorized
  else if (ch.tokens a.vault_account).isNone then .error .AccountNotFound
  else if (ch.tokens a.initializer_deposit_token_account).isNone then .error .AccountNotFound
  else
    match ch.escrows a.escrow_account with
    | none => .error .RecordNotFound
    | some record =>
      if record.initializer_key ≠ a.initializer then .error .Unauthorized
      else if record.initializer_deposit_token_account ≠ a.initializer_deposit_token_account then
        .error .AccountMismatch
      else
        match splTransfer ch a.vault_account a.initializer_deposit_token_account
            a.vault_authority record.initializer_amount (signers ++ [vaultAuthorityKey]) with
        | .error e => .error e
        | .ok ch1 =>
          match splCloseAccount ch1 a.vault_account a.initializer a.vault_authority
              (signers ++ [vaultAuthorityKey]) with
          | .error e => .error e
          | .ok ch2 => .ok { ch2 with escrows := setEsc ch2.escrows a.escrow_account none }

/-- `exchange(ctx)`.  Validation (Anchor, field order): `taker` is a
signer; the four party token accounts are token accounts; the escrow
record must exist (else `RecordNotFound`) with, in source order:
`taker_amount <= taker_deposit_token_account.amount` (else
`InsufficientFunds`), the stored deposit account, receive account and
`initializer_key` matching the supplied ones (else `AccountMismatch`);
`vault_account` is a token account.  No constraint relates
`vault_account` or `vault_authority` to the record.  Handler (source
order): transfer `taker_amount` from the taker's deposit account to the
initializer's receive account (taker signs), transfer
`initializer_amount` from `vault_account` to the taker's receive account
with the escrow PDA signing, close `vault_account` to `initializer`,
and close the record (`close = initializer`). -/
def exchange (ch : Chain) (a : ExchangeAccs) (signers : List Pubkey) :
    Except Err Chain :=
  if a.taker ∉ signers then .error .Unauthorized
  else
    match ch.tokens a.taker_deposit_token_account with
    | none => .error .AccountNotFound
    | some takerDep =>
      if (ch.tokens a.taker_receive_token_account).isNone then .error .AccountNotFound
      else if (ch.tokens a.initializer_deposit_token_account).isNone then .error .AccountNotFound
      else if (ch.tokens a.initializer_receive_token_account).isNone then .error .AccountNotFound
      else
        match ch.escrows a.escrow_account with
        | none => .error .RecordNotFound
        | some record =>
          if takerDep.amount < record.taker_amount then .error .InsufficientFunds
          else if record.initializer_deposit_token_account ≠ a.initializer_deposit_token_account then
            .error .AccountMismatch
          else if record.initializer_receive_token_account ≠ a.initializer_receive_token_account then
            .error .AccountMismatch
          else if record.initializer_key ≠ a.initializer then .error .AccountMismatch
          else if (ch.tokens a.vault_account).isNone then .error .AccountNotFound
          else
            match splTransfer ch a.taker_deposit_token_account
                a.initializer_receive_token_account a.taker record.taker_amount signers with
            | .error e => .error e
            | .ok ch1 =>
              match splTransfer ch1 a.vault_account a.taker_receive_token_account
                  a.vault_authority record.initializer_amount (signers ++ [vaultAuthorityKey]) with
              | .error e => .error e
              | .ok ch2 =>
                match splCloseAccount ch2 a.vault_account a.initializer a.vault_authority
                    (signers ++ [vaultAuthorityKey]) with
                | .error e => .error e
                | .ok ch3 => .ok { ch3 with escrows := setEsc ch3.escrows a.escrow_account none }

/-- Extract the success state of an instruction, with a default. -/
def getOk (e : Except Err Chain) (d : Chain) : Chain :=
  match e with
  | .ok c => c
  | .error _ => d

/-- Extract the error of a failed instruction, if any. -/
def errOf (e : Except Err Chain) : Option Err :=
  match e with
  | .ok _ => none
  | .error x => some x

/-! ### A concrete scenario (used by witnesses and counterexamples)

Alice (the initializer) offers 100 units of asset A for 50 units of
asset B; Bob is the taker.  A stray token account `strayAcct` owned by
the escrow PDA also exists on chain. -/

def mintA : Pubkey := 10
def mintB : Pubkey := 11
def alice : Pubkey := 20
def bob : Pubkey := 21
def aliceDepA : Pubkey := 30
def aliceRecvB : Pubkey := 31
def bobDepB : Pubkey := 32
def bobRecvA : Pubkey := 33
def escrowAddr : Pubkey := 40
def strayAcct : Pubkey := 50

/-- Initial chain: Alice holds 150 A and 0 B, Bob holds 50 B and 0 A,
and `strayAcct` is a token account of mint A owned by the escrow PDA
holding 100 units. -/
def ch0 : Chain where
  tokens := fun p =>
    if p = aliceDepA then some ⟨mintA, alice, 150, 5⟩
    else if p = aliceRecvB then some ⟨mintB, alice, 0, 5⟩
    else if p = bobDepB then some ⟨mintB, bob, 50, 5⟩
    else if p = bobRecvA then some ⟨mintA, bob, 0, 5⟩
    else if p = strayAcct then some ⟨mintA, vaultAuthorityKey, 100, 7⟩
    else none
  escrows := fun _ => none
  mints := fun p => p == mintA || p == mintB
  lamports := fun _ => 0

def ia : InitializeAccs := ⟨alice, mintA, vaultAddressOf 255, aliceDepA, aliceRecvB, escrowAddr⟩

def ea : ExchangeAccs :=
  ⟨bob, bobDepB, bobRecvA, aliceDepA, aliceRecvB, alice, escrowAddr, vaultAddressOf 255,
    vaultAuthorityKey⟩

def ca : CancelAccs := ⟨alice, vaultAddressOf 255, vaultAuthorityKey, aliceDepA, escrowAddr⟩

/-- The chain after Alice's `initialize(offered = 100, requested = 50)`. -/
def chOpen : Chain := getOk (initializeEscrow ch0 ia [alice] 255 100 50) ch0

example : (initializeEscrow ch0 ia [alice] 255 100 50).isOk = true := by decide
example : bal chOpen (vaultAddressOf 255) = 100 := by decide
example : bal chOpen aliceDepA = 50 := by decide
example : (chOpen.escrows escrowAddr).isSome = true := by decide
example : (exchange chOpen ea [bob]).isOk = true := by decide
example : bal (getOk (exchange chOpen ea [bob]) ch0) bobRecvA = 100 := by decide
example : bal (getOk (exchange chOpen ea [bob]) ch0) aliceRecvB = 50 := by decide
example : (cancel chOpen ca [alice]).isOk = true := by decide
example : bal (getOk (cancel chOpen ca [alice]) ch0) aliceDepA = 150 := by decide
example : (cancel chOpen { ca with vault_account := strayAcct } [alice]).isOk = true := by decide
example : (exchange chOpen { ea with vault_account := strayAcct } [bob]).isOk = true := by decide
example : errOf (cancel (getOk (cancel chOpen ca [alice]) ch0) { ca with vault_account := aliceDepA } [alice]) = some .RecordNotFound := by decide

/-! ### Inversion lemmas for the token-program primitives -/

theorem setTok_self (f : Pubkey → Option TokenAccount) (k : Pubkey) (v : Option TokenAccount) :
    setTok f k v k = v := by
  simp [setTok]

theorem setTok_other (f : Pubkey → Option TokenAccount) (k : Pubkey) (v : Option TokenAccount)
    (p : Pubkey) (h : p ≠ k) : setTok f k v p = f p := by
  simp [setTok, h]

theorem setEsc_self (f : Pubkey → Option EscrowAccount) (k : Pubkey) (v : Option EscrowAccount) :
    setEsc f k v k = v := by
  simp [setEsc]

theorem setEsc_other (f : Pubkey → Option EscrowAccount) (k : Pubkey) (v : Option EscrowAccount)
    (p : Pubkey) (h : p ≠ k) : setEsc f k v p = f p := by
  simp [setEsc, h]

/-- Success characterization of `splTransfer`. -/
theorem splTransfer_ok_inv {ch ch' : Chain} {src dst auth : Pubkey} {amt : Nat}
    {sb : List Pubkey} (h : splTransfer ch src dst auth amt sb = .ok ch') :
    ∃ f t, ch.tokens src = some f ∧ ch.tokens dst = some t ∧
      f.owner = auth ∧ auth ∈ sb ∧ amt ≤ f.amount ∧ f.mint = t.mint ∧
      ((src = dst ∧ ch' = ch) ∨
        (src ≠ dst ∧ t.amount + amt < U64CAP ∧
          ch' = { ch with tokens := setTok (setTok ch.tokens src (some { f with amount := f.amount - amt })) dst (some { t with amount := t.amount + amt }) })) := by
  unfold splTransfer at h
  split at h
  · exact Except.noConfusion h
  rename_i f hf
  split at h
  · exact Except.noConfusion h
  rename_i t ht
  split at h
  · exact Except.noConfusion h
  rename_i hown
  split at h
  · exact Except.noConfusion h
  rename_i hsig
  split at h
  · exact Except.noConfusion h
  rename_i hamt
  split at h
  · exact Except.noConfusion h
  rename_i hmint
  split at h
  · rename_i hsd
    refine ⟨f, t, hf, ht, not_not.mp (by simpa using hown), not_not.mp hsig,
      Nat.le_of_not_lt hamt, not_not.mp (by simpa using hmint), Or.inl ⟨hsd, ?_⟩⟩
    cases h
    rfl
  rename_i hsd
  split at h
  · exact Except.noConfusion h
  rename_i hcap
  refine ⟨f, t, hf, ht, not_not.mp (by simpa using hown), not_not.mp hsig,
    Nat.le_of_not_lt hamt, not_not.mp (by simpa using hmint),
    Or.inr ⟨hsd, Nat.lt_of_not_le hcap, ?_⟩⟩
  cases h
  rfl

/-- Success characterization of `splSetAuthority`. -/
theorem splSetAuthority_ok_inv {ch ch' : Chain} {account newA curA : Pubkey}
    {sb : List Pubkey} (h : splSetAuthority ch account newA curA sb = .ok ch') :
    ∃ t, ch.tokens account = some t ∧ t.owner = curA ∧ curA ∈ sb ∧
      ch' = { ch with tokens := setTok ch.tokens account (some { t with owner := newA }) } := by
  unfold splSetAuthority at h
  split at h
  · exact Except.noConfusion h
  rename_i t ht
  split at h
  · exact Except.noConfusion h
  rename_i hown
  split at h
  · exact Except.noConfusion h
  rename_i hsig
  refine ⟨t, ht, not_not.mp (by simpa using hown), not_not.mp hsig, ?_⟩
  cases h
  rfl

/-- Success characterization of `splCloseAccount`. -/
theorem splCloseAccount_ok_inv {ch ch' : Chain} {account dest auth : Pubkey}
    {sb : List Pubkey} (h : splCloseAccount ch account dest auth sb = .ok ch') :
    ∃ t, ch.tokens account = some t ∧ t.owner = auth ∧ auth ∈ sb ∧ t.amount = 0 ∧
      ch' = { ch with tokens := setTok ch.tokens account none,
                      lamports := addLam ch.lamports dest t.lamports } := by
  unfold splCloseAccount at h
  split at h
  · exact Except.noConfusion h
  rename_i t ht
  split at h
  · exact Except.noConfusion h
  rename_i hown
  split at h
  · exact Except.noConfusion h
  rename_i hsig
  split at h
  · exact Except.noConfusion h
  rename_i hz
  refine ⟨t, ht, not_not.mp (by simpa using hown), not_not.mp hsig,
    not_not.mp (by simpa using hz), ?_⟩
  cases h
  rfl

/-- Balance, frame and owner/mint-preservation facts of a successful
`splTransfer`. -/
theorem splTransfer_ok_facts {ch ch' : Chain} {src dst auth : Pubkey} {amt : Nat}
    {sb : List Pubkey} (h : splTransfer ch src dst auth amt sb = .ok ch') :
    (∀ q, q ≠ src → q ≠ dst → ch'.tokens q = ch.tokens q) ∧
    bal ch' src + bal ch' dst = bal ch src + bal ch dst ∧
    (∀ p g, ch.tokens p = some g →
      ∃ g', ch'.tokens p = some g' ∧ g'.owner = g.owner ∧ g'.mint = g.mint ∧
        g'.lamports = g.lamports) ∧
    ch'.escrows = ch.escrows ∧ ch'.lamports = ch.lamports := by
  obtain ⟨f, t, hf, ht, hown, hsig, hamt, hmint, hcase⟩ := splTransfer_ok_inv h
  rcases hcase with ⟨hsd, rfl⟩ | ⟨hsd, hcap, rfl⟩
  · exact ⟨fun q _ _ => rfl, rfl, fun p g hg => ⟨g, hg, rfl, rfl, rfl⟩, rfl, rfl⟩
  · refine ⟨?_, ?_, ?_, rfl, rfl⟩
    · intro q hqs hqd
      show setTok (setTok ch.tokens src _) dst _ q = ch.tokens q
      rw [setTok_other _ _ _ _ hqd, setTok_other _ _ _ _ hqs]
    · have hs : setTok (setTok ch.tokens src (some { f with amount := f.amount - amt })) dst
          (some { t with amount := t.amount + amt }) src = some { f with amount := f.amount - amt } := by
        rw [setTok_other _ _ _ _ hsd, setTok_self]
      have hd : setTok (setTok ch.tokens src (some { f with amount := f.amount - amt })) dst
          (some { t with amount := t.amount + amt }) dst = some { t with amount := t.amount + amt } := by
        rw [setTok_self]
      simp only [bal, hs, hd, hf, ht]
      omega
    · intro p g hg
      by_cases hpd : p = dst
      · subst hpd
        have hgt : g = t := by
          rw [ht] at hg
          exact (Option.some.injEq _ _ ▸ hg).symm
        refine ⟨{ t with amount := t.amount + amt }, ?_, ?_, ?_, ?_⟩
        · show setTok _ p _ p = _
          rw [setTok_self]
        · rw [hgt]
        · rw [hgt]
        · rw [hgt]
      · by_cases hps : p = src
        · subst hps
          have hgf : g = f := by
            rw [hf] at hg
            exact (Option.some.injEq _ _ ▸ hg).symm
          refine ⟨{ f with amount := f.amount - amt }, ?_, ?_, ?_, ?_⟩
          · show setTok (setTok _ p _) dst _ p = _
            rw [setTok_other _ _ _ _ hpd, setTok_self]
          · rw [hgf]
          · rw [hgf]
          · rw [hgf]
        · refine ⟨g, ?_, rfl, rfl, rfl⟩
          show setTok (setTok _ src _) dst _ p = _
          rw [setTok_other _ _ _ _ hpd, setTok_other _ _ _ _ hps, hg]

/-- Balance and frame facts of a successful `splSetAuthority`. -/
theorem splSetAuthority_ok_facts {ch ch' : Chain} {account newA curA : Pubkey}
    {sb : List Pubkey} (h : splSetAuthority ch account newA curA sb = .ok ch') :
    (∀ q, bal ch' q = bal ch q) ∧
    (∀ q, q ≠ account → ch'.tokens q = ch.tokens q) ∧
    ch'.escrows = ch.escrows ∧ ch'.lamports = ch.lamports := by
  obtain ⟨t, ht, hown, hsig, rfl⟩ := splSetAuthority_ok_inv h
  refine ⟨?_, ?_, rfl, rfl⟩
  · intro q
    by_cases hq : q = account
    · subst hq
      simp only [bal, setTok_self, ht]
    · show bal _ q = _
      simp only [bal, setTok_other _ _ _ _ hq]
  · intro q hq
    show setTok _ _ _ q = _
    rw [setTok_other _ _ _ _ hq]

/-- Balance and frame facts of a successful `splCloseAccount`: the closed
account held zero tokens, so all token balances are preserved; the
account's lamports go to the destination. -/
theorem splCloseAccount_ok_facts {ch ch' : Chain} {account dest auth : Pubkey}
    {sb : List Pubkey} (h : splCloseAccount ch account dest auth sb = .ok ch') :
    (∀ q, bal ch' q = bal ch q) ∧
    (∀ q, q ≠ account → ch'.tokens q = ch.tokens q) ∧
    ch'.tokens account = none ∧
    ch'.escrows = ch.escrows ∧
    (∃ t, ch.tokens account = some t ∧ t.amount = 0 ∧
      ch'.lamports = addLam ch.lamports dest t.lamports) := by
  obtain ⟨t, ht, hown, hsig, hz, rfl⟩ := splCloseAccount_ok_inv h
  refine ⟨?_, ?_, ?_, rfl, t, ht, hz, rfl⟩
  · intro q
    by_cases hq : q = account
    · subst hq
      simp only [bal, setTok_self, ht, hz]
    · show bal _ q = _
      simp only [bal, setTok_other _ _ _ _ hq]
  · intro q hq
    show setTok _ _ _ q = _
    rw [setTok_other _ _ _ _ hq]
  · show setTok _ _ _ account = none
    rw [setTok_self]

/-! ### Success decompositions of the three instructions -/

/-- What a successful `cancel` implies: the validation facts and the
ordered sequence of effects it performed. -/
theorem cancel_ok_decomp {ch ch' : Chain} {a : CancelAccs} {s : List Pubkey}
    (h : cancel ch a s = .ok ch') :
    a.initializer ∈ s ∧
    ∃ record ch1 ch2,
      ch.escrows a.escrow_account = some record ∧
      record.initializer_key = a.initializer ∧
      record.initializer_deposit_token_account = a.initializer_deposit_token_account ∧
      splTransfer ch a.vault_account a.initializer_deposit_token_account a.vault_authority
        record.initializer_amount (s ++ [vaultAuthorityKey]) = .ok ch1 ∧
      splCloseAccount ch1 a.vault_account a.initializer a.vault_authority
        (s ++ [vaultAuthorityKey]) = .ok ch2 ∧
      ch' = { ch2 with escrows := setEsc ch2.escrows a.escrow_account none } := by
  unfold cancel at h
  split at h
  · exact Except.noConfusion h
  rename_i hsig
  split at h
  · exact Except.noConfusion h
  split at h
  · exact Except.noConfusion h
  split at h
  · exact Except.noConfusion h
  rename_i record hrec
  split at h
  · exact Except.noConfusion h
  rename_i hkey
  split at h
  · exact Except.noConfusion h
  rename_i hdm
  split at h
  · exact Except.noConfusion h
  rename_i ch1 htr
  split at h
  · exact Except.noConfusion h
  rename_i ch2 hcl
  cases h
  exact ⟨not_not.mp hsig, record, ch1, ch2, hrec, not_not.mp hkey, not_not.mp hdm, htr, hcl, rfl⟩

/-- What a successful `exchange` implies: the validation facts and the
ordered sequence of effects it performed. -/
theorem exchange_ok_decomp {ch ch' : Chain} {a : ExchangeAccs} {s : List Pubkey}
    (h : exchange ch a s = .ok ch') :
    a.taker ∈ s ∧
    ∃ record td ch1 ch2 ch3,
      ch.tokens a.taker_deposit_token_account = some td ∧
      ch.escrows a.escrow_account = some record ∧
      record.taker_amount ≤ td.amount ∧
      record.initializer_deposit_token_account = a.initializer_deposit_token_account ∧
      record.initializer_receive_token_account = a.initializer_receive_token_account ∧
      record.initializer_key = a.initializer ∧
      splTransfer ch a.taker_deposit_token_account a.initializer_receive_token_account a.taker
        record.taker_amount s = .ok ch1 ∧
      splTransfer ch1 a.vault_account a.taker_receive_token_account a.vault_authority
        record.initializer_amount (s ++ [vaultAuthorityKey]) = .ok ch2 ∧
      splCloseAccount ch2 a.vault_account a.initializer a.vault_authority
        (s ++ [vaultAuthorityKey]) = .ok ch3 ∧
      ch' = { ch3 with escrows := setEsc ch3.escrows a.escrow_account none } := by
  unfold exchange at h
  split at h
  · exact Except.noConfusion h
  rename_i hsig
  split at h
  · exact Except.noConfusion h
  rename_i td htd
  split at h
  · exact Except.noConfusion h
  split at h
  · exact Except.noConfusion h
  split at h
  · exact Except.noConfusion h
  split at h
  · exact Except.noConfusion h
  rename_i record hrec
  split at h
  · exact Except.noConfusion h
  rename_i hamt
  split at h
  · exact Except.noConfusion h
  rename_i hdm
  split at h
  · exact Except.noConfusion h
  rename_i hrm
  split at h
  · exact Except.noConfusion h
  rename_i hkm
  split at h
  · exact Except.noConfusion h
  split at h
  · exact Except.noConfusion h
  rename_i ch1 htr1
  split at h
  · exact Except.noConfusion h
  rename_i ch2 htr2
  split at h
  · exact Except.noConfusion h
  rename_i ch3 hcl
  cases h
  exact ⟨not_not.mp hsig, record, td, ch1, ch2, ch3, htd, hrec, Nat.le_of_not_lt hamt,
    not_not.mp hdm, not_not.mp hrm, not_not.mp hkm, htr1, htr2, hcl, rfl⟩

/-- The state after Anchor has created the fresh vault for `initialize`
and the handler has populated the escrow record, before the two token
CPIs. -/
def initStaged (ch : Chain) (a : InitializeAccs) (amtI amtT : Nat) : Chain :=
  { ch with
    tokens := setTok ch.tokens a.vault_account (some ⟨a.mint, a.initializer, 0, VAULT_RENT⟩),
    escrows := setEsc ch.escrows a.escrow_account
      (some ⟨a.initializer, a.initializer_deposit_token_account,
        a.initializer_receive_token_account, amtI, amtT⟩) }

/-- What a successful `initialize` implies: the validation facts and the
ordered sequence of effects it performed. -/
theorem initializeEscrow_ok_decomp {ch ch' : Chain} {a : InitializeAccs} {s : List Pubkey}
    {bump amtI amtT : Nat} (h : initializeEscrow ch a s bump amtI amtT = .ok ch') :
    a.initializer ∈ s ∧
    a.vault_account = vaultAddressOf bump ∧
    ch.tokens a.vault_account = none ∧
    ch.escrows a.escrow_account = none ∧
    ∃ dep chS,
      ch.tokens a.initializer_deposit_token_account = some dep ∧
      amtI ≤ dep.amount ∧
      splSetAuthority (initStaged ch a amtI amtT) a.vault_account vaultAuthorityKey
        a.initializer s = .ok chS ∧
      splTransfer chS a.initializer_deposit_token_account a.vault_account a.initializer
        amtI s = .ok ch' := by
  unfold initializeEscrow at h
  split at h
  · exact Except.noConfusion h
  rename_i hsig
  split at h
  · exact Except.noConfusion h
  split at h
  · exact Except.noConfusion h
  rename_i hvaddr
  split at h
  · exact Except.noConfusion h
  rename_i hvfresh
  split at h
  · exact Except.noConfusion h
  rename_i dep hdep
  split at h
  · exact Except.noConfusion h
  rename_i hamt
  split at h
  · exact Except.noConfusion h
  split at h
  · exact Except.noConfusion h
  rename_i hez
  dsimp only at h
  split at h
  · exact Except.noConfusion h
  rename_i chS hsa
  split at h
  · exact Except.noConfusion h
  rename_i chT htr
  cases h
  refine ⟨not_not.mp hsig, not_not.mp hvaddr, ?_, ?_, dep, chS, hdep,
    Nat.le_of_not_lt hamt, hsa, htr⟩
  · exact Option.not_isSome_iff_eq_none.mp hvfresh
  · exact Option.not_isSome_iff_eq_none.mp hez

/-! ### Behaviour when the escrow record is absent -/

/-- With no record at the targeted address, `cancel` can never succeed,
and fails with `RecordNotFound` whenever the caller signed and the
supplied token accounts exist (the checks that Anchor runs before the
record lookup). -/
theorem cancel_record_absent {ch : Chain} {a : CancelAccs} {s : List Pubkey}
    (hrec : ch.escrows a.escrow_account = none) :
    (∀ ch', cancel ch a s ≠ .ok ch') ∧
    (a.initializer ∈ s →
      ∀ v d, ch.tokens a.vault_account = some v →
        ch.tokens a.initializer_deposit_token_account = some d →
        cancel ch a s = .error .RecordNotFound) := by
  constructor
  · intro ch' h
    obtain ⟨-, record, -, -, hr, -⟩ := cancel_ok_decomp h
    rw [hrec] at hr
    exact Option.noConfusion hr
  · intro hs v d hv hd
    simp [cancel, hs, hv, hd, hrec]

/-- With no record at the targeted address, `exchange` can never
succeed, and fails with `RecordNotFound` whenever the taker signed and
the four party token accounts exist. -/
theorem exchange_record_absent {ch : Chain} {a : ExchangeAccs} {s : List Pubkey}
    (hrec : ch.escrows a.escrow_account = none) :
    (∀ ch', exchange ch a s ≠ .ok ch') ∧
    (a.taker ∈ s →
      ∀ td tr idp irc, ch.tokens a.taker_deposit_token_account = some td →
        ch.tokens a.taker_receive_token_account = some tr →
        ch.tokens a.initializer_deposit_token_account = some idp →
        ch.tokens a.initializer_receive_token_account = some irc →
        exchange ch a s = .error .RecordNotFound) := by
  constructor
  · intro ch' h
    obtain ⟨-, record, td, -, -, -, -, hr, -⟩ := exchange_ok_decomp h
    rw [hrec] at hr
    exact Option.noConfusion hr
  · intro hs td tr idp irc htd htr hidp hirc
    simp [exchange, hs, htd, htr, hidp, hirc, hrec]

/-! ### Signer congruence: which signatures an instruction depends on -/

/-- An `splTransfer` depends on the signer set only through the
membership of its authority. -/
theorem splTransfer_signers_congr (ch : Chain) (src dst auth : Pubkey) (amt : Nat)
    (s s' : List Pubkey) (hiff : auth ∈ s ↔ auth ∈ s') :
    splTransfer ch src dst auth amt s = splTransfer ch src dst auth amt s' := by
  unfold splTransfer
  rcases ch.tokens src with _ | f
  · rfl
  rcases ch.tokens dst with _ | t
  · rfl
  by_cases hmem : auth ∈ s
  · have hmem' := hiff.mp hmem
    simp only [hmem, hmem', not_true_eq_false, if_false]
  · have hmem' := mt hiff.mpr hmem
    simp only [hmem, hmem', not_false_eq_true, if_true]

/-- A PDA-signed `splTransfer` out of an account owned by the escrow
PDA does not depend on the transaction signer set at all. -/
theorem splTransfer_pda_signers_congr (ch : Chain) (src dst auth : Pubkey) (amt : Nat)
    (s s' : List Pubkey) (f : TokenAccount) (hf : ch.tokens src = some f)
    (hown : f.owner = vaultAuthorityKey) :
    splTransfer ch src dst auth amt (s ++ [vaultAuthorityKey]) =
      splTransfer ch src dst auth amt (s' ++ [vaultAuthorityKey]) := by
  by_cases hauth : auth = vaultAuthorityKey
  · subst hauth
    apply splTransfer_signers_congr
    simp
  · have hne : f.owner ≠ auth := by
      rw [hown]
      exact fun hh => hauth hh.symm
    unfold splTransfer
    rw [hf]
    rcases ch.tokens dst with _ | t
    · rfl
    simp [hne]

/-- A PDA-signed `splCloseAccount` of an account owned by the escrow PDA
does not depend on the transaction signer set at all. -/
theorem splCloseAccount_pda_signers_congr (ch : Chain) (account dest auth : Pubkey)
    (s s' : List Pubkey) (t : TokenAccount) (ht : ch.tokens account = some t)
    (hown : t.owner = vaultAuthorityKey) :
    splCloseAccount ch account dest auth (s ++ [vaultAuthorityKey]) =
      splCloseAccount ch account dest auth (s' ++ [vaultAuthorityKey]) := by
  by_cases hauth : auth = vaultAuthorityKey
  · subst hauth
    unfold splCloseAccount
    rw [ht]
    have hmem : vaultAuthorityKey ∈ s ++ [vaultAuthorityKey] := by simp
    have hmem' : vaultAuthorityKey ∈ s' ++ [vaultAuthorityKey] := by simp
    simp only [hmem, hmem', not_true_eq_false, if_false]
  · have hne : t.owner ≠ auth := by
      rw [hown]
      exact fun hh => hauth hh.symm
    unfold splCloseAccount
    rw [ht]
    simp [hne]

/-- Provided the supplied vault account is owned by the escrow PDA (as
`initialize` leaves it), the result of `exchange` depends on the
transaction signer set only through whether the taker signed: no other
signature — in particular no signature of the initializer — is ever
consulted, because the vault-side legs are authorized by the PDA their
`with_signer` seeds reconstruct. -/
theorem exchange_signers_congr {ch : Chain} {a : ExchangeAccs} {s s' : List Pubkey}
    (v : TokenAccount) (hv : ch.tokens a.vault_account = some v)
    (hown : v.owner = vaultAuthorityKey) (hiff : a.taker ∈ s ↔ a.taker ∈ s') :
    exchange ch a s = exchange ch a s' := by
  unfold exchange
  by_cases hmem : a.taker ∈ s
  · have hmem' := hiff.mp hmem
    simp only [hmem, hmem', not_true_eq_false, if_false]
    rcases htd : ch.tokens a.taker_deposit_token_account with _ | td
    · rfl
    by_cases h1 : (ch.tokens a.taker_receive_token_account).isNone = true
    · simp [h1]
    simp only [if_neg h1]
    by_cases h2 : (ch.tokens a.initializer_deposit_token_account).isNone = true
    · simp [h2]
    simp only [if_neg h2]
    by_cases h3 : (ch.tokens a.initializer_receive_token_account).isNone = true
    · simp [h3]
    simp only [if_neg h3]
    rcases hrec : ch.escrows a.escrow_account with _ | record
    · rfl
    by_cases h4 : td.amount < record.taker_amount
    · simp [h4]
    simp only [if_neg h4]
    by_cases h5 : record.initializer_deposit_token_account ≠ a.initializer_deposit_token_account
    · simp [h5]
    simp only [if_neg h5]
    by_cases h6 : record.initializer_receive_token_account ≠ a.initializer_receive_token_account
    · simp [h6]
    simp only [if_neg h6]
    by_cases h7 : record.initializer_key ≠ a.initializer
    · simp [h7]
    simp only [if_neg h7]
    have h8 : ¬((ch.tokens a.vault_account).isNone = true) := by
      rw [hv]
      simp
    simp only [if_neg h8]
    rw [splTransfer_signers_congr ch a.taker_deposit_token_account
      a.initializer_receive_token_account a.taker record.taker_amount s s' hiff]
    cases hleg1 : splTransfer ch a.taker_deposit_token_account
        a.initializer_receive_token_account a.taker record.taker_amount s' with
    | error e => rfl
    | ok ch1 =>
      dsimp only
      obtain ⟨v1, hv1, hvo1, -, -⟩ := (splTransfer_ok_facts hleg1).2.2.1 a.vault_account v hv
      rw [splTransfer_pda_signers_congr ch1 a.vault_account a.taker_receive_token_account
        a.vault_authority record.initializer_amount s s' v1 hv1 (hvo1.trans hown)]
      cases hleg2 : splTransfer ch1 a.vault_account a.taker_receive_token_account
          a.vault_authority record.initializer_amount (s' ++ [vaultAuthorityKey]) with
      | error e => rfl
      | ok ch2 =>
        dsimp only
        obtain ⟨v2, hv2, hvo2, -, -⟩ := (splTransfer_ok_facts hleg2).2.2.1 a.vault_account v1 hv1
        rw [splCloseAccount_pda_signers_congr ch2 a.vault_account a.initializer
          a.vault_authority s s' v2 hv2 (hvo2.trans (hvo1.trans hown))]
  · have hmem' := mt hiff.mpr hmem
    simp only [hmem, hmem', not_false_eq_true, if_true]

/-- Equal token maps at a point give equal balances. -/
theorem bal_eq_of_tokens_eq {ch ch' : Chain} {q : Pubkey}
    (h : ch'.tokens q = ch.tokens q) : bal ch' q = bal ch q := by
  unfold bal
  rw [h]

/-! ### Claims -/

/-- C1 counterexample: `exchange` does NOT cross-check the supplied
vault account against anything stored in the Escrow Record (the Record
stores no vault reference).  With the real Vault at `vaultAddressOf
255` still holding the 100 locked units, an `exchange` supplying the
unrelated PDA-owned account `strayAcct` as the vault succeeds instead
of failing with `AccountMismatch`, and the real Vault is left
untouched. -/
theorem exchange_vault_not_cross_checked_cx :
    (exchange chOpen { ea with vault_account := strayAcct } [bob]).isOk = true ∧
    strayAcct ≠ vaultAddressOf 255 ∧
    bal chOpen (vaultAddressOf 255) = 100 ∧
    bal (getOk (exchange chOpen { ea with vault_account := strayAcct } [bob]) ch0)
      (vaultAddressOf 255) = 100 := by
  decide

/-- C1 (amended): for every `exchange` call, the initializer's deposit
account, the initializer's receive account and the initializer identity
are cross-checked against the references stored in the Escrow Record —
the call fails with `AccountMismatch` on any mismatch there, during
validation and hence before any asset moves, and can only succeed when
all three match.  The supplied vault account, however, is not checked
against the Record, which stores no vault reference. -/
theorem exchange_checks_initializer_accounts (ch : Chain) (a : ExchangeAccs) (s : List Pubkey) :
    (∀ ch', exchange ch a s = .ok ch' →
      ∃ record, ch.escrows a.escrow_account = some record ∧
        record.initializer_deposit_token_account = a.initializer_deposit_token_account ∧
        record.initializer_receive_token_account = a.initializer_receive_token_account ∧
        record.initializer_key = a.initializer) ∧
    (∀ td tr idp irc record, a.taker ∈ s →
      ch.tokens a.taker_deposit_token_account = some td →
      ch.tokens a.taker_receive_token_account = some tr →
      ch.tokens a.initializer_deposit_token_account = some idp →
      ch.tokens a.initializer_receive_token_account = some irc →
      ch.escrows a.escrow_account = some record →
      record.taker_amount ≤ td.amount →
      (record.initializer_deposit_token_account ≠ a.initializer_deposit_token_account ∨
        record.initializer_receive_token_account ≠ a.initializer_receive_token_account ∨
        record.initializer_key ≠ a.initializer) →
      exchange ch a s = .error .AccountMismatch) := by
  constructor
  · intro ch' h
    obtain ⟨-, record, td, -, -, -, htd, hrec, -, hdm, hrm, hkm, -⟩ := exchange_ok_decomp h
    exact ⟨record, hrec, hdm, hrm, hkm⟩
  · intro td tr idp irc record hs htd htr hidp hirc hrec hamt hmis
    have hlt := Nat.not_lt.mpr hamt
    by_cases hdm : record.initializer_deposit_token_account = a.initializer_deposit_token_account
    · by_cases hrm : record.initializer_receive_token_account = a.initializer_receive_token_account
      · have hkm : record.initializer_key ≠ a.initializer := by
          rcases hmis with h | h | h
          · exact absurd hdm h
          · exact absurd hrm h
          · exact h
        simp [exchange, hs, htd, htr, hidp, hirc, hrec, hlt, hdm, hrm, hkm]
      · simp [exchange, hs, htd, htr, hidp, hirc, hrec, hlt, hdm, hrm]
    · simp [exchange, hs, htd, htr, hidp, hirc, hrec, hlt, hdm]

/-- C1 witness: in the open-offer state, an `exchange` supplying
`bobRecvA` in place of the recorded deposit account `aliceDepA` fails
with `AccountMismatch`. -/
theorem exchange_checks_initializer_accounts_witness :
    exchange chOpen { ea with initializer_deposit_token_account := bobRecvA } [bob] =
      .error .AccountMismatch :=
  (exchange_checks_initializer_accounts chOpen
      { ea with initializer_deposit_token_account := bobRecvA } [bob]).2
    ⟨mintB, bob, 50, 5⟩ ⟨mintA, bob, 0, 5⟩ ⟨mintA, bob, 0, 5⟩ ⟨mintB, alice, 0, 5⟩
    ⟨alice, aliceDepA, aliceRecvB, 100, 50⟩
    (by decide) (by decide) (by decide) (by decide) (by decide) (by decide) (by decide)
    (Or.inl (by decide))

/-- C2: a `cancel` not signed by the supplied initializer fails with
`Unauthorized`; a successful `cancel` requires the supplied initializer
to have signed and to equal the Record's `initializer_key`; and a signed
`cancel` whose caller differs from the Record's `initializer_key` fails
with `Unauthorized`.  Only the initializer can ever cancel. -/
theorem cancel_only_initializer (ch : Chain) (a : CancelAccs) (s : List Pubkey) :
    (a.initializer ∉ s → cancel ch a s = .error .Unauthorized) ∧
    (∀ ch', cancel ch a s = .ok ch' →
      a.initializer ∈ s ∧
        ∃ record, ch.escrows a.escrow_account = some record ∧
          record.initializer_key = a.initializer) ∧
    (∀ v d record, a.initializer ∈ s →
      ch.tokens a.vault_account = some v →
      ch.tokens a.initializer_deposit_token_account = some d →
      ch.escrows a.escrow_account = some record →
      record.initializer_key ≠ a.initializer →
      cancel ch a s = .error .Unauthorized) := by
  refine ⟨?_, ?_, ?_⟩
  · intro h
    simp [cancel, h]
  · intro ch' h
    obtain ⟨hmem, record, -, -, hrec, hkey, -⟩ := cancel_ok_decomp h
    exact ⟨hmem, record, hrec, hkey⟩
  · intro v d record hs hv hd hrec hkey
    simp [cancel, hs, hv, hd, hrec, hkey]

/-- C2 witness: an unsigned `cancel` and a `cancel` signed by Bob (who
is not the initializer recorded in the Record) both fail with
`Unauthorized` on the open offer. -/
theorem cancel_only_initializer_witness :
    cancel chOpen ca [] = .error .Unauthorized ∧
    cancel chOpen { ca with initializer := bob } [bob] = .error .Unauthorized := by
  constructor
  · exact (cancel_only_initializer chOpen ca []).1 (by decide)
  · exact (cancel_only_initializer chOpen { ca with initializer := bob } [bob]).2.2
      ⟨mintA, vaultAuthorityKey, 100, VAULT_RENT⟩ ⟨mintA, alice, 50, 5⟩
      ⟨alice, aliceDepA, aliceRecvB, 100, 50⟩
      (by decide) (by decide) (by decide) (by decide) (by decide)

/-- C3: `initialize` fails with `InsufficientFunds` when the
initializer's deposit account holds less than `initializer_amount`, and
`exchange` fails with `InsufficientFunds` when the taker's deposit
account holds less than the Record's `taker_amount`; both checks are
account-validation constraints, raised before any transfer is attempted
(the error is returned with no state change), and success of either
operation implies the respective balance was sufficient. -/
theorem insufficient_funds_checked :
    (∀ ch (a : InitializeAccs) s bump amtI amtT dep, a.initializer ∈ s →
      ch.mints a.mint = true →
      a.vault_account = vaultAddressOf bump →
      ch.tokens a.vault_account = none →
      ch.tokens a.initializer_deposit_token_account = some dep →
      dep.amount < amtI →
      initializeEscrow ch a s bump amtI amtT = .error .InsufficientFunds) ∧
    (∀ ch (a : InitializeAccs) s bump amtI amtT ch' dep,
      initializeEscrow ch a s bump amtI amtT = .ok ch' →
      ch.tokens a.initializer_deposit_token_account = some dep →
      amtI ≤ dep.amount) ∧
    (∀ ch (a : ExchangeAccs) s td tr idp irc record, a.taker ∈ s →
      ch.tokens a.taker_deposit_token_account = some td →
      ch.tokens a.taker_receive_token_account = some tr →
      ch.tokens a.initializer_deposit_token_account = some idp →
      ch.tokens a.initializer_receive_token_account = some irc →
      ch.escrows a.escrow_account = some record →
      td.amount < record.taker_amount →
      exchange ch a s = .error .InsufficientFunds) ∧
    (∀ ch (a : ExchangeAccs) s ch' td, exchange ch a s = .ok ch' →
      ch.tokens a.taker_deposit_token_account = some td →
      ∃ record, ch.escrows a.escrow_account = some record ∧
        record.taker_amount ≤ td.amount) := by
  refine ⟨?_, ?_, ?_, ?_⟩
  · intro ch a s bump amtI amtT dep hs hm hva hfresh hdep hlt
    rw [hva] at hfresh
    simp [initializeEscrow, hs, hm, hva, hfresh, hdep, hlt]
  · intro ch a s bump amtI amtT ch' dep h hdep
    obtain ⟨-, -, -, -, dep', -, hdep', hle, -⟩ := initializeEscrow_ok_decomp h
    rw [hdep] at hdep'
    cases hdep'
    exact hle
  · intro ch a s td tr idp irc record hs htd htr hidp hirc hrec hlt
    simp [exchange, hs, htd, htr, hidp, hirc, hrec, hlt]
  · intro ch a s ch' td h htd
    obtain ⟨-, record, td', -, -, -, htd', hrec, hle, -⟩ := exchange_ok_decomp h
    rw [htd] at htd'
    cases htd'
    exact ⟨record, hrec, hle⟩

/-- C3 witness: Alice cannot open an offer of 200 with only 100 in her
deposit account, and Bob cannot take the 50-unit offer out of an account
holding 0: both fail with `InsufficientFunds`. -/
theorem insufficient_funds_checked_witness :
    initializeEscrow ch0 ia [alice] 255 200 50 = .error .InsufficientFunds ∧
    exchange chOpen { ea with taker_deposit_token_account := bobRecvA } [bob] =
      .error .InsufficientFunds := by
  constructor
  · exact insufficient_funds_checked.1 ch0 ia [alice] 255 200 50 ⟨mintA, alice, 150, 5⟩
      (by decide) (by decide) (by decide) (by decide) (by decide) (by decide)
  · exact insufficient_funds_checked.2.2.1 chOpen
      { ea with taker_deposit_token_account := bobRecvA } [bob]
      ⟨mintA, bob, 0, 5⟩ ⟨mintA, bob, 0, 5⟩ ⟨mintA, alice, 50, 5⟩ ⟨mintB, alice, 0, 5⟩
      ⟨alice, aliceDepA, aliceRecvB, 100, 50⟩
      (by decide) (by decide) (by decide) (by decide) (by decide) (by decide) (by decide)

/-- The chain after Bob's successful `exchange` of the open offer. -/
def chDone : Chain := getOk (exchange chOpen ea [bob]) ch0

/-- The chain after Alice's successful `cancel` of the open offer. -/
def chCancelled : Chain := getOk (cancel chOpen ca [alice]) ch0

/-- C4: every successful `exchange` consists of, in this order: a
transfer of the Record's `taker_amount` (the requested amount of asset
B) from the taker's deposit account to the initializer's receive
account authorized by the taker's own signature, then a transfer of the
Record's `initializer_amount` (the offered amount of asset A) from the
vault account to the taker's receive account with the escrow PDA
signing, then closure of the vault with its residual lamport deposit
credited to the initializer, then destruction of the Record. -/
theorem exchange_success_steps (ch : Chain) (a : ExchangeAccs) (s : List Pubkey) (ch' : Chain)
    (h : exchange ch a s = .ok ch') :
    ∃ record ch1 ch2 ch3,
      ch.escrows a.escrow_account = some record ∧
      splTransfer ch a.taker_deposit_token_account a.initializer_receive_token_account a.taker
        record.taker_amount s = .ok ch1 ∧
      splTransfer ch1 a.vault_account a.taker_receive_token_account a.vault_authority
        record.initializer_amount (s ++ [vaultAuthorityKey]) = .ok ch2 ∧
      splCloseAccount ch2 a.vault_account a.initializer a.vault_authority
        (s ++ [vaultAuthorityKey]) = .ok ch3 ∧
      ch' = { ch3 with escrows := setEsc ch3.escrows a.escrow_account none } ∧
      ch'.escrows a.escrow_account = none := by
  obtain ⟨-, record, td, ch1, ch2, ch3, -, hrec, -, -, -, -, hleg1, hleg2, hcl, heq⟩ :=
    exchange_ok_decomp h
  refine ⟨record, ch1, ch2, ch3, hrec, hleg1, hleg2, hcl, heq, ?_⟩
  rw [heq]
  show setEsc ch3.escrows a.escrow_account none a.escrow_account = none
  rw [setEsc_self]

/-- C4 witness: the concrete successful exchange of the open offer
decomposes into exactly those four ordered steps. -/
theorem exchange_success_steps_witness :
    ∃ record ch1 ch2 ch3,
      chOpen.escrows ea.escrow_account = some record ∧
      splTransfer chOpen ea.taker_deposit_token_account ea.initializer_receive_token_account
        ea.taker record.taker_amount [bob] = .ok ch1 ∧
      splTransfer ch1 ea.vault_account ea.taker_receive_token_account ea.vault_authority
        record.initializer_amount ([bob] ++ [vaultAuthorityKey]) = .ok ch2 ∧
      splCloseAccount ch2 ea.vault_account ea.initializer ea.vault_authority
        ([bob] ++ [vaultAuthorityKey]) = .ok ch3 ∧
      chDone = { ch3 with escrows := setEsc ch3.escrows ea.escrow_account none } ∧
      chDone.escrows ea.escrow_account = none :=
  exchange_success_steps chOpen ea [bob] chDone rfl

/-- C5: every successful `cancel` consists of, in this order: a transfer
of the Record's `initializer_amount` (the offered amount of asset A)
from the vault account back to the initializer's deposit account — which
the validation forces to equal the Record's
`initializer_deposit_token_account`, failing with `AccountMismatch`
otherwise — with the escrow PDA signing, then closure of the vault with
its residual lamport deposit credited to the initializer, then
destruction of the Record. -/
theorem cancel_success_steps :
    (∀ ch (a : CancelAccs) s ch', cancel ch a s = .ok ch' →
      ∃ record ch1 ch2,
        ch.escrows a.escrow_account = some record ∧
        record.initializer_deposit_token_account = a.initializer_deposit_token_account ∧
        splTransfer ch a.vault_account a.initializer_deposit_token_account a.vault_authority
          record.initializer_amount (s ++ [vaultAuthorityKey]) = .ok ch1 ∧
        splCloseAccount ch1 a.vault_account a.initializer a.vault_authority
          (s ++ [vaultAuthorityKey]) = .ok ch2 ∧
        ch' = { ch2 with escrows := setEsc ch2.escrows a.escrow_account none } ∧
        ch'.escrows a.escrow_account = none) ∧
    (∀ ch (a : CancelAccs) s v d record, a.initializer ∈ s →
      ch.tokens a.vault_account = some v →
      ch.tokens a.initializer_deposit_token_account = some d →
      ch.escrows a.escrow_account = some record →
      record.initializer_key = a.initializer →
      record.initializer_deposit_token_account ≠ a.initializer_deposit_token_account →
      cancel ch a s = .error .AccountMismatch) := by
  constructor
  · intro ch a s ch' h
    obtain ⟨-, record, ch1, ch2, hrec, -, hdm, htr, hcl, heq⟩ := cancel_ok_decomp h
    refine ⟨record, ch1, ch2, hrec, hdm, htr, hcl, heq, ?_⟩
    rw [heq]
    show setEsc ch2.escrows a.escrow_account none a.escrow_account = none
    rw [setEsc_self]
  · intro ch a s v d record hs hv hd hrec hkey hne
    simp [cancel, hs, hv, hd, hrec, hkey, hne]

/-- C5 witness: the concrete successful cancel of the open offer
decomposes into exactly those steps, and a cancel supplying a deposit
account other than the recorded one fails with `AccountMismatch`. -/
theorem cancel_success_steps_witness :
    (∃ record ch1 ch2,
      chOpen.escrows ca.escrow_account = some record ∧
      record.initializer_deposit_token_account = ca.initializer_deposit_token_account ∧
      splTransfer chOpen ca.vault_account ca.initializer_deposit_token_account
        ca.vault_authority record.initializer_amount ([alice] ++ [vaultAuthorityKey]) = .ok ch1 ∧
      splCloseAccount ch1 ca.vault_account ca.initializer ca.vault_authority
        ([alice] ++ [vaultAuthorityKey]) = .ok ch2 ∧
      chCancelled = { ch2 with escrows := setEsc ch2.escrows ca.escrow_account none } ∧
      chCancelled.escrows ca.escrow_account = none) ∧
    cancel chOpen { ca with initializer_deposit_token_account := bobRecvA } [alice] =
      .error .AccountMismatch := by
  constructor
  · exact cancel_success_steps.1 chOpen ca [alice] chCancelled rfl
  · exact cancel_success_steps.2 chOpen
      { ca with initializer_deposit_token_account := bobRecvA } [alice]
      ⟨mintA, vaultAuthorityKey, 100, VAULT_RENT⟩ ⟨mintA, bob, 0, 5⟩
      ⟨alice, aliceDepA, aliceRecvB, 100, 50⟩
      (by decide) (by decide) (by decide) (by decide) (by decide) (by decide)

/-- C6: once a `cancel` or an `exchange` has succeeded for a Record, the
Record is destroyed, so no later `cancel` or `exchange` targeting the
same Record — including a repeat of the same operation — can ever
succeed, and every such attempt whose signer and account prerequisites
(checked before the record lookup) are satisfied fails with
`RecordNotFound`. -/
theorem record_consumed_exactly_once (ch ch' : Chain) (E : Pubkey)
    (h : (∃ (ca1 : CancelAccs) (s1 : List Pubkey),
            ca1.escrow_account = E ∧ cancel ch ca1 s1 = .ok ch') ∨
         (∃ (ea1 : ExchangeAccs) (s1 : List Pubkey),
            ea1.escrow_account = E ∧ exchange ch ea1 s1 = .ok ch')) :
    ch'.escrows E = none ∧
    (∀ (ca2 : CancelAccs) s2 ch'', ca2.escrow_account = E → cancel ch' ca2 s2 ≠ .ok ch'') ∧
    (∀ (ea2 : ExchangeAccs) s2 ch'', ea2.escrow_account = E → exchange ch' ea2 s2 ≠ .ok ch'') ∧
    (∀ (ca2 : CancelAccs) s2 v d, ca2.escrow_account = E → ca2.initializer ∈ s2 →
      ch'.tokens ca2.vault_account = some v →
      ch'.tokens ca2.initializer_deposit_token_account = some d →
      cancel ch' ca2 s2 = .error .RecordNotFound) ∧
    (∀ (ea2 : ExchangeAccs) s2 td tr idp irc, ea2.escrow_account = E → ea2.taker ∈ s2 →
      ch'.tokens ea2.taker_deposit_token_account = some td →
      ch'.tokens ea2.taker_receive_token_account = some tr →
      ch'.tokens ea2.initializer_deposit_token_account = some idp →
      ch'.tokens ea2.initializer_receive_token_account = some irc →
      exchange ch' ea2 s2 = .error .RecordNotFound) := by
  have hnone : ch'.escrows E = none := by
    rcases h with ⟨ca1, s1, hE, hok⟩ | ⟨ea1, s1, hE, hok⟩
    · obtain ⟨-, record, ch1, ch2, -, -, -, -, -, heq⟩ := cancel_ok_decomp hok
      rw [heq]
      show setEsc ch2.escrows ca1.escrow_account none E = none
      rw [← hE, setEsc_self]
    · obtain ⟨-, record, td, ch1, ch2, ch3, -, -, -, -, -, -, -, -, -, heq⟩ :=
        exchange_ok_decomp hok
      rw [heq]
      show setEsc ch3.escrows ea1.escrow_account none E = none
      rw [← hE, setEsc_self]
  refine ⟨hnone, ?_, ?_, ?_, ?_⟩
  · intro ca2 s2 ch'' hE2
    exact (cancel_record_absent (by rw [hE2]; exact hnone)).1 ch''
  · intro ea2 s2 ch'' hE2
    exact (exchange_record_absent (by rw [hE2]; exact hnone)).1 ch''
  · intro ca2 s2 v d hE2 hs hv hd
    exact (cancel_record_absent (by rw [hE2]; exact hnone)).2 hs v d hv hd
  · intro ea2 s2 td tr idp irc hE2 hs h1 h2 h3 h4
    exact (exchange_record_absent (by rw [hE2]; exact hnone)).2 hs td tr idp irc h1 h2 h3 h4

/-- C6 witness: after Alice's successful cancel, the Record is gone, and
both a repeat `cancel` and an `exchange` targeting the same Record (with
all their other prerequisites satisfied) fail with `RecordNotFound`. -/
theorem record_consumed_exactly_once_witness :
    chCancelled.escrows escrowAddr = none ∧
    cancel chCancelled { ca with vault_account := aliceDepA } [alice] =
      .error .RecordNotFound ∧
    exchange chCancelled { ea with vault_account := aliceDepA } [bob] =
      .error .RecordNotFound := by
  have h := record_consumed_exactly_once chOpen chCancelled escrowAddr
    (Or.inl ⟨ca, [alice], rfl, rfl⟩)
  refine ⟨h.1, ?_, ?_⟩
  · exact h.2.2.2.1 { ca with vault_account := aliceDepA } [alice]
      ⟨mintA, alice, 150, 5⟩ ⟨mintA, alice, 150, 5⟩ (by decide) (by decide)
      (by decide) (by decide)
  · exact h.2.2.2.2 { ea with vault_account := aliceDepA } [bob]
      ⟨mintB, bob, 50, 5⟩ ⟨mintA, bob, 0, 5⟩ ⟨mintA, alice, 150, 5⟩ ⟨mintB, alice, 0, 5⟩
      (by decide) (by decide) (by decide) (by decide) (by decide) (by decide)

/-- C7: `exchange` never requires the initializer's signature.  With the
vault owned by the escrow PDA (as `initialize` leaves it), the outcome
of `exchange` depends on the transaction signers only through whether
the taker signed — so any signer set in which the taker signed gives the
same result as the taker signing alone — and a successful `exchange`
requires the taker's signature while its vault-side transfer is
authorized by the protocol-derived authority: the supplied vault
authority must be the PDA reconstructed from the fixed seed. -/
theorem exchange_taker_only_signature (ch : Chain) (a : ExchangeAccs) (s s' : List Pubkey)
    (v : TokenAccount) (hv : ch.tokens a.vault_account = some v)
    (hown : v.owner = vaultAuthorityKey) :
    ((a.taker ∈ s ↔ a.taker ∈ s') → exchange ch a s = exchange ch a s') ∧
    (∀ ch', exchange ch a s = .ok ch' →
      a.taker ∈ s ∧ a.vault_authority = vaultAuthorityKey) := by
  constructor
  · intro hiff
    exact exchange_signers_congr v hv hown hiff
  · intro ch' h
    obtain ⟨hmem, record, td, ch1, ch2, ch3, -, -, -, -, -, -, hleg1, hleg2, -, -⟩ :=
      exchange_ok_decomp h
    obtain ⟨v1, hv1, hvo1, -, -⟩ := (splTransfer_ok_facts hleg1).2.2.1 a.vault_account v hv
    obtain ⟨f, t, hf, -, hfo, -, -, -, -⟩ := splTransfer_ok_inv hleg2
    rw [hv1] at hf
    injection hf with hf
    subst hf
    exact ⟨hmem, (hfo.symm.trans hvo1).trans hown⟩

/-- C7 witness: on the open offer, adding Alice (the initializer) to the
signers changes nothing relative to Bob signing alone, a successful
exchange has Bob among the signers, and the supplied vault authority is
the protocol PDA. -/
theorem exchange_taker_only_signature_witness :
    exchange chOpen ea [bob, alice] = exchange chOpen ea [bob] ∧
    (ea.taker ∈ [bob, alice] ∧ ea.vault_authority = vaultAuthorityKey) := by
  have h := exchange_taker_only_signature chOpen ea [bob, alice] [bob]
    ⟨mintA, vaultAuthorityKey, 100, VAULT_RENT⟩ (by decide) (by decide)
  exact ⟨h.1 (by decide), h.2 (getOk (exchange chOpen ea [bob, alice]) ch0) rfl⟩

/-- A second offer of Alice's that reuses bump 255 (opened after the
first offer was cancelled). -/
def ia2 : InitializeAccs := ⟨alice, mintA, vaultAddressOf 255, aliceDepA, aliceRecvB, 41⟩

/-- A concurrent offer of Alice's with the different bump 254, opened
while the first offer is still outstanding. -/
def ia3 : InitializeAccs := ⟨alice, mintA, vaultAddressOf 254, aliceDepA, aliceRecvB, 42⟩

/-- C9 counterexample: a new offer's Vault is NOT distinct from a
previous offer's Vault.  The vault address is derived from the fixed
seed `[b"token-seed"]` and the caller-supplied bump byte only — nothing
about the offer — so Alice's second, different offer `ia2`, opened with
the same bump 255 after the first was cancelled, succeeds at the very
same Vault address as the first offer.  (A concurrent offer with a
different bump, `ia3`, also succeeds while the first is still open, so
the address family is bump-indexed, not unique.) -/
theorem vault_reused_across_offers_cx :
    (initializeEscrow ch0 ia [alice] 255 100 50).isOk = true ∧
    (cancel chOpen ca [alice]).isOk = true ∧
    (initializeEscrow chCancelled ia2 [alice] 255 40 20).isOk = true ∧
    ia2.vault_account = ia.vault_account ∧
    (initializeEscrow chOpen ia3 [alice] 254 40 20).isOk = true := by
  decide

/-- C9 (amended): each `initialize` creates its Vault freshly — the
supplied vault account must sit at the program-derived address
`vaultAddressOf bump` of the fixed seed and the caller-supplied bump,
and must not exist yet; while an account occupies that derived address,
an `initialize` with that bump cannot succeed, so two simultaneously
outstanding offers never share a Vault account.  But the derived
address depends only on the bump byte, never on the offer: any two
successful `initialize` calls supplying the same bump use the identical
Vault address, so a new offer's Vault is not distinct from a previous
offer's Vault that used the same bump. -/
theorem vault_bump_determined_address :
    (∀ ch (a : InitializeAccs) s bump amtI amtT ch',
      initializeEscrow ch a s bump amtI amtT = .ok ch' →
      a.vault_account = vaultAddressOf bump ∧ ch.tokens a.vault_account = none) ∧
    (∀ ch (a : InitializeAccs) s bump amtI amtT v,
      ch.tokens (vaultAddressOf bump) = some v →
      ∀ ch', initializeEscrow ch a s bump amtI amtT ≠ .ok ch') ∧
    (∀ ch1 ch2 (a1 a2 : InitializeAccs) s1 s2 bump amtI1 amtT1 amtI2 amtT2 ch1' ch2',
      initializeEscrow ch1 a1 s1 bump amtI1 amtT1 = .ok ch1' →
      initializeEscrow ch2 a2 s2 bump amtI2 amtT2 = .ok ch2' →
      a1.vault_account = a2.vault_account) := by
  refine ⟨?_, ?_, ?_⟩
  · intro ch a s bump amtI amtT ch' h
    exact ⟨(initializeEscrow_ok_decomp h).2.1, (initializeEscrow_ok_decomp h).2.2.1⟩
  · intro ch a s bump amtI amtT v hv ch' h
    have hfresh := (initializeEscrow_ok_decomp h).2.2.1
    rw [(initializeEscrow_ok_decomp h).2.1, hv] at hfresh
    exact Option.noConfusion hfresh
  · intro ch1 ch2 a1 a2 s1 s2 bump amtI1 amtT1 amtI2 amtT2 ch1' ch2' h1 h2
    rw [(initializeEscrow_ok_decomp h1).2.1, (initializeEscrow_ok_decomp h2).2.1]

/-- C9 witness: Alice's first offer with bump 255 sits at the derived
address of that bump and was created fresh; while it is open, another
`initialize` with bump 255 cannot succeed; and her later same-bump
offer `ia2` provably reuses the identical Vault address. -/
theorem vault_bump_determined_address_witness :
    (ia.vault_account = vaultAddressOf 255 ∧ ch0.tokens ia.vault_account = none) ∧
    (initializeEscrow chOpen ia2 [alice] 255 40 20).isOk = false ∧
    ia.vault_account = ia2.vault_account := by
  refine ⟨?_, ?_, ?_⟩
  · exact vault_bump_determined_address.1 ch0 ia [alice] 255 100 50 chOpen rfl
  · cases hres : initializeEscrow chOpen ia2 [alice] 255 40 20 with
    | error e => rfl
    | ok c =>
      exact absurd hres (vault_bump_determined_address.2.1 chOpen ia2 [alice] 255 40 20
        ⟨mintA, vaultAuthorityKey, 100, VAULT_RENT⟩ (by decide) c)
  · exact vault_bump_determined_address.2.2 ch0 chCancelled ia ia2 [alice] [alice] 255
      100 50 40 20 chOpen (getOk (initializeEscrow chCancelled ia2 [alice] 255 40 20) ch0)
      rfl rfl

/-- C8: conservation.  Across a successful `initialize` or `cancel` the
total asset-A balance over the initializer's deposit account, the Vault
and any third account is unchanged, and across a successful `exchange`
the total over the initializer's deposit account, the Vault and the
taker's receive account is unchanged while the total asset-B balance
over the taker's deposit account and the initializer's receive account
is also unchanged (distinct accounts assumed where the sums would
otherwise double-count). -/
theorem asset_conservation :
    (∀ ch (a : InitializeAccs) s bump amtI amtT ch' q,
      initializeEscrow ch a s bump amtI amtT = .ok ch' →
      q ≠ a.initializer_deposit_token_account → q ≠ a.vault_account →
      bal ch' a.initializer_deposit_token_account + bal ch' a.vault_account + bal ch' q =
        bal ch a.initializer_deposit_token_account + bal ch a.vault_account + bal ch q) ∧
    (∀ ch (a : CancelAccs) s ch' q, cancel ch a s = .ok ch' →
      q ≠ a.initializer_deposit_token_account → q ≠ a.vault_account →
      bal ch' a.initializer_deposit_token_account + bal ch' a.vault_account + bal ch' q =
        bal ch a.initializer_deposit_token_account + bal ch a.vault_account + bal ch q) ∧
    (∀ ch (a : ExchangeAccs) s ch', exchange ch a s = .ok ch' →
      a.taker_deposit_token_account ≠ a.initializer_deposit_token_account →
      a.taker_deposit_token_account ≠ a.vault_account →
      a.taker_deposit_token_account ≠ a.taker_receive_token_account →
      a.initializer_receive_token_account ≠ a.initializer_deposit_token_account →
      a.initializer_receive_token_account ≠ a.vault_account →
      a.initializer_receive_token_account ≠ a.taker_receive_token_account →
      a.initializer_deposit_token_account ≠ a.vault_account →
      a.initializer_deposit_token_account ≠ a.taker_receive_token_account →
      (bal ch' a.initializer_deposit_token_account + bal ch' a.vault_account +
          bal ch' a.taker_receive_token_account =
        bal ch a.initializer_deposit_token_account + bal ch a.vault_account +
          bal ch a.taker_receive_token_account) ∧
      (bal ch' a.taker_deposit_token_account + bal ch' a.initializer_receive_token_account =
        bal ch a.taker_deposit_token_account + bal ch a.initializer_receive_token_account)) := by
  refine ⟨?_, ?_, ?_⟩
  · intro ch a s bump amtI amtT ch' q h hq1 hq2
    obtain ⟨-, hva, hfresh, -, dep, chS, hdep, -, hsa, htr⟩ := initializeEscrow_ok_decomp h
    have hst : ∀ r, bal (initStaged ch a amtI amtT) r = bal ch r := by
      intro r
      by_cases hr : r = a.vault_account
      · subst hr
        unfold bal
        have h1 : (initStaged ch a amtI amtT).tokens a.vault_account =
            some ⟨a.mint, a.initializer, 0, VAULT_RENT⟩ := by
          show setTok ch.tokens a.vault_account (some ⟨a.mint, a.initializer, 0, VAULT_RENT⟩)
            a.vault_account = _
          exact setTok_self _ _ _
        rw [h1, hfresh]
      · unfold bal
        have h1 : (initStaged ch a amtI amtT).tokens r = ch.tokens r := by
          show setTok ch.tokens a.vault_account (some ⟨a.mint, a.initializer, 0, VAULT_RENT⟩)
            r = _
          exact setTok_other _ _ _ _ hr
        rw [h1]
    have hSA := (splSetAuthority_ok_facts hsa).1
    have hTR := splTransfer_ok_facts htr
    have e1 : bal ch' a.initializer_deposit_token_account + bal ch' a.vault_account =
        bal ch a.initializer_deposit_token_account + bal ch a.vault_account := by
      have hsum := hTR.2.1
      simp only [hSA, hst] at hsum
      exact hsum
    have e2 : bal ch' q = bal ch q := by
      have hfr := bal_eq_of_tokens_eq (hTR.1 q hq1 hq2)
      rw [hfr, hSA, hst]
    omega
  · intro ch a s ch' q h hq1 hq2
    obtain ⟨-, record, ch1, ch2, -, -, -, htr, hcl, heq⟩ := cancel_ok_decomp h
    have hbal2 : ∀ r, bal ch' r = bal ch2 r := by
      intro r
      rw [heq]
      rfl
    have hCL := (splCloseAccount_ok_facts hcl).1
    have hTR := splTransfer_ok_facts htr
    have e1 : bal ch' a.vault_account + bal ch' a.initializer_deposit_token_account =
        bal ch a.vault_account + bal ch a.initializer_deposit_token_account := by
      have hsum := hTR.2.1
      rw [hbal2, hbal2, hCL, hCL]
      exact hsum
    have e2 : bal ch' q = bal ch q := by
      rw [hbal2, hCL]
      exact bal_eq_of_tokens_eq (hTR.1 q hq2 hq1)
    omega
  · intro ch a s ch' h h1 h2 h3 h4 h5 h6 h7 h8
    obtain ⟨-, record, td, ch1, ch2, ch3, -, -, -, -, -, -, hleg1, hleg2, hcl, heq⟩ :=
      exchange_ok_decomp h
    have hbal3 : ∀ r, bal ch' r = bal ch3 r := by
      intro r
      rw [heq]
      rfl
    have hCL := (splCloseAccount_ok_facts hcl).1
    have hT1 := splTransfer_ok_facts hleg1
    have hT2 := splTransfer_ok_facts hleg2
    constructor
    · have eidep : bal ch' a.initializer_deposit_token_account =
          bal ch a.initializer_deposit_token_account := by
        rw [hbal3, hCL]
        have f2 := bal_eq_of_tokens_eq (hT2.1 a.initializer_deposit_token_account h7 h8)
        have f1 := bal_eq_of_tokens_eq
          (hT1.1 a.initializer_deposit_token_account (Ne.symm h1) (Ne.symm h4))
        rw [f2, f1]
      have esum : bal ch' a.vault_account + bal ch' a.taker_receive_token_account =
          bal ch a.vault_account + bal ch a.taker_receive_token_account := by
        rw [hbal3, hbal3, hCL, hCL]
        have hsum := hT2.2.1
        have fv := bal_eq_of_tokens_eq (hT1.1 a.vault_account (Ne.symm h2) (Ne.symm h5))
        have ft := bal_eq_of_tokens_eq
          (hT1.1 a.taker_receive_token_account (Ne.symm h3) (Ne.symm h6))
        rw [fv, ft] at hsum
        exact hsum
      omega
    · have hsum := hT1.2.1
      have ftd := bal_eq_of_tokens_eq (hT2.1 a.taker_deposit_token_account h2 h3)
      have fir := bal_eq_of_tokens_eq (hT2.1 a.initializer_receive_token_account h5 h6)
      rw [hbal3, hbal3, hCL, hCL, ftd, fir]
      exact hsum

/-- C8 witness: the conservation sums hold concretely across Alice's
`initialize`, Alice's `cancel` and Bob's `exchange` of the 100-for-50
offer, with `bobRecvA` as the third asset-A account. -/
theorem asset_conservation_witness :
    (bal chOpen ia.initializer_deposit_token_account + bal chOpen ia.vault_account +
        bal chOpen bobRecvA =
      bal ch0 ia.initializer_deposit_token_account + bal ch0 ia.vault_account +
        bal ch0 bobRecvA) ∧
    (bal chCancelled ca.initializer_deposit_token_account + bal chCancelled ca.vault_account +
        bal chCancelled bobRecvA =
      bal chOpen ca.initializer_deposit_token_account + bal chOpen ca.vault_account +
        bal chOpen bobRecvA) ∧
    ((bal chDone ea.initializer_deposit_token_account + bal chDone ea.vault_account +
          bal chDone ea.taker_receive_token_account =
        bal chOpen ea.initializer_deposit_token_account + bal chOpen ea.vault_account +
          bal chOpen ea.taker_receive_token_account) ∧
      (bal chDone ea.taker_deposit_token_account +
          bal chDone ea.initializer_receive_token_account =
        bal chOpen ea.taker_deposit_token_account +
          bal chOpen ea.initializer_receive_token_account)) :=
  ⟨asset_conservation.1 ch0 ia [alice] 255 100 50 chOpen bobRecvA rfl (by decide) (by decide),
   asset_conservation.2.1 chOpen ca [alice] chCancelled bobRecvA rfl (by decide) (by decide),
   asset_conservation.2.2 chOpen ea [bob] chDone rfl (by decide) (by decide) (by decide)
     (by decide) (by decide) (by decide) (by decide) (by decide)⟩

/-- C10: the Escrow Record stores no identifier of the Vault and
`cancel` never compares the supplied vault account to the offer: any
successful `cancel` moves `initializer_amount` out of whichever token
account the caller supplied as `vault_account` — the record hypothesis
below constrains the record's other fields only, never the vault — that
account is then closed, the recorded deposit account is credited, and
every account other than these two is untouched. -/
theorem cancel_drains_supplied_vault (ch : Chain) (a : CancelAccs) (s : List Pubkey)
    (ch' : Chain) (record : EscrowAccount) (h : cancel ch a s = .ok ch')
    (hrec : ch.escrows a.escrow_account = some record) :
    ∃ v, ch.tokens a.vault_account = some v ∧
      v.amount = record.initializer_amount ∧
      ch'.tokens a.vault_account = none ∧
      (a.vault_account ≠ a.initializer_deposit_token_account →
        bal ch' a.initializer_deposit_token_account =
          bal ch a.initializer_deposit_token_account + record.initializer_amount) ∧
      (∀ q, q ≠ a.vault_account → q ≠ a.initializer_deposit_token_account →
        ch'.tokens q = ch.tokens q) := by
  obtain ⟨-, record0, ch1, ch2, hrec0, -, -, htr, hcl, heq⟩ := cancel_ok_decomp h
  rw [hrec] at hrec0
  injection hrec0 with hrec0
  subst hrec0
  obtain ⟨f, t, hf, ht, -, -, hamt, -, hcase⟩ := splTransfer_ok_inv htr
  obtain ⟨tc, htc, -, -, htz, hcleq⟩ := splCloseAccount_ok_inv hcl
  have htok : ch'.tokens = ch2.tokens := by
    rw [heq]
  have hv2 : ch2.tokens a.vault_account = none := by
    rw [hcleq]
    show setTok ch1.tokens a.vault_account none a.vault_account = none
    exact setTok_self _ _ _
  have hfr2 : ∀ q, q ≠ a.vault_account → ch2.tokens q = ch1.tokens q := by
    intro q hq
    rw [hcleq]
    show setTok ch1.tokens a.vault_account none q = ch1.tokens q
    exact setTok_other _ _ _ _ hq
  rcases hcase with ⟨hsd, hch1⟩ | ⟨hsd, hcap, hch1⟩
  · -- degenerate self-transfer: the supplied vault IS the deposit account
    rw [hch1] at htc hfr2
    rw [hf] at htc
    injection htc with htc
    rw [← htc] at htz
    refine ⟨f, hf, by omega, ?_, ?_, ?_⟩
    · rw [htok]
      exact hv2
    · intro hne
      exact absurd hsd hne
    · intro q hq1 hq2
      rw [htok, hfr2 q hq1]
  · have hv1 : ch1.tokens a.vault_account =
        some { f with amount := f.amount - record.initializer_amount } := by
      rw [hch1]
      show setTok (setTok ch.tokens a.vault_account (some { f with amount := f.amount - record.initializer_amount })) a.initializer_deposit_token_account (some { t with amount := t.amount + record.initializer_amount }) a.vault_account = _
      rw [setTok_other _ _ _ _ hsd]
      exact setTok_self _ _ _
    have hd1 : ch1.tokens a.initializer_deposit_token_account =
        some { t with amount := t.amount + record.initializer_amount } := by
      rw [hch1]
      show setTok (setTok ch.tokens a.vault_account (some { f with amount := f.amount - record.initializer_amount })) a.initializer_deposit_token_account (some { t with amount := t.amount + record.initializer_amount }) a.initializer_deposit_token_account = _
      exact setTok_self _ _ _
    have hfr1 : ∀ q, q ≠ a.vault_account → q ≠ a.initializer_deposit_token_account →
        ch1.tokens q = ch.tokens q := by
      intro q hq1 hq2
      rw [hch1]
      show setTok (setTok ch.tokens a.vault_account (some { f with amount := f.amount - record.initializer_amount })) a.initializer_deposit_token_account (some { t with amount := t.amount + record.initializer_amount }) q = _
      rw [setTok_other _ _ _ _ hq2]
      exact setTok_other _ _ _ _ hq1
    rw [hv1] at htc
    injection htc with htc
    rw [← htc] at htz
    have hfz : f.amount - record.initializer_amount = 0 := htz
    refine ⟨f, hf, by omega, ?_, ?_, ?_⟩
    · rw [htok]
      exact hv2
    · intro hne
      unfold bal
      rw [htok, hfr2 _ (Ne.symm hsd), hd1, ht]
    · intro q hq1 hq2
      rw [htok, hfr2 q hq1, hfr1 q hq1 hq2]

/-- C10 witness: on the open offer (whose real Vault sits at
`vaultAddressOf 255` with 100 units), Alice's `cancel` supplying the stray
PDA-owned account `strayAcct` succeeds: it drains and closes
`strayAcct`, credits the recorded deposit account, and leaves the real
Vault — like every other account — untouched. -/
theorem cancel_drains_supplied_vault_witness :
    (∃ v, chOpen.tokens strayAcct = some v ∧
      v.amount = 100 ∧
      (getOk (cancel chOpen { ca with vault_account := strayAcct } [alice]) ch0).tokens
        strayAcct = none ∧
      (strayAcct ≠ aliceDepA →
        bal (getOk (cancel chOpen { ca with vault_account := strayAcct } [alice]) ch0)
            aliceDepA = bal chOpen aliceDepA + 100) ∧
      (∀ q, q ≠ strayAcct → q ≠ aliceDepA →
        (getOk (cancel chOpen { ca with vault_account := strayAcct } [alice]) ch0).tokens q =
          chOpen.tokens q)) :=
  cancel_drains_supplied_vault chOpen { ca with vault_account := strayAcct } [alice]
    (getOk (cancel chOpen { ca with vault_account := strayAcct } [alice]) ch0)
    ⟨alice, aliceDepA, aliceRecvB, 100, 50⟩ rfl (by decide)

end Escrow
